import Mathlib

/-!
Verification of the plan-and-execute RAG agent (Syed-MuhammadTaha/agentic-rag).

Shallow embedding of:
  * the quote-escaping applied to retrieved text
    (src/app/src/agent/utils/retrieval_nodes.py),
  * the plan-execute LangGraph and its nodes
    (src/app/src/agent/graph.py, utils/nodes.py, utils/retrieval_nodes.py,
     utils/workflow.py, utils/state.py),
  * the ingestion pipeline (src/app/scripts/ingestion.py).

Model calls (the LLM "oracles") and vector-store searches are modelled as
explicit parameters, following the source's structured-output schemas.
-/

namespace AgenticRag

/-! ## Quote escaping (retrieval_nodes.py)

The source applies, to retrieved and filtered text,
  text.replace('"', '\\"').replace("'", "\\'")
Python's str.replace replaces every non-overlapping occurrence left to
right.  For a single-character pattern this is a per-character expansion;
for the two-character patterns of the canonical unescaping it is a
left-to-right scan. -/

/-- Python s.replace(c, r) for a single-character pattern c. -/
def replaceOne (c : Char) (r : List Char) : List Char → List Char
  | [] => []
  | a :: t => (if a = c then r else [a]) ++ replaceOne c r t

/-- Python s.replace("\\" + q, q) : left-to-right, non-overlapping
replacement of the two-character pattern backslash-q by q. -/
def replacePair (q : Char) : List Char → List Char
  | [] => []
  | [a] => [a]
  | a :: b :: t =>
      if a = '\\' ∧ b = q then q :: replacePair q t
      else a :: replacePair q (b :: t)

/-- The escaping from retrieval_nodes.py lines 41-43, 56-58 and 92:
replace every double quote by backslash-double-quote, then every single
quote by backslash-single-quote. -/
def escapeL (l : List Char) : List Char :=
  replaceOne '\'' ['\\', '\''] (replaceOne '"' ['\\', '"'] l)

/-- The canonical unescaping (inverse replacement, in reverse order):
replace backslash-single-quote by single quote, then
backslash-double-quote by double quote. -/
def unescapeL (l : List Char) : List Char :=
  replacePair '"' (replacePair '\'' l)

/-- String-level escaping, as applied to the retrieved context. -/
def escape (s : String) : String := ⟨escapeL s.data⟩

/-- String-level canonical unescaping. -/
def unescape (s : String) : String := ⟨unescapeL s.data⟩

/-- One-pass form of the two single-character replacement passes:
per-character expansion of both quote characters. -/
def escStep (a : Char) : List Char :=
  if a = '"' then ['\\', '"'] else if a = '\'' then ['\\', '\''] else [a]

/-- Per-character expansion escaping only the double quote (the
intermediate stage of unescaping, after single quotes are restored). -/
def halfStep (a : Char) : List Char :=
  if a = '"' then ['\\', '"'] else [a]

def escAll : List Char → List Char
  | [] => []
  | a :: t => escStep a ++ escAll t

def halfAll : List Char → List Char
  | [] => []
  | a :: t => halfStep a ++ halfAll t

/-- The head of a list, when present, is not the character q. -/
def HeadIsnt (q : Char) : List Char → Prop
  | [] => True
  | a :: _ => a ≠ q

/-! ## State schemas (src/app/src/agent/utils/state.py) -/

/-- PlanExecute (state.py lines 21-38): the plan-execute graph's state
schema, a Pydantic model whose fields all default to empty.  The
dict-valued mapping field is modelled as an association list. -/
structure PlanExecute where
  curr_state : String := ""
  question : String := ""
  query_to_retrieve_or_answer : String := ""
  plan : List String := []
  context : String := ""
  past_steps : List String := []
  mapping : List (String × String) := []
  curr_context : String := ""
  aggregated_context : String := ""
  tool : String := ""
  response : String := ""
deriving Repr, DecidableEq

/-- TaskHandlerOutput (state.py lines 56-71): the structured output of the
task-handler model call.  Its tool field is a plain string; the field's
description says it should be retrieve_chunks, retrieve_quotes, or
answer_from_context, but no code-level validation enforces that. -/
structure TaskHandlerOutput where
  query : String
  curr_context : String
  tool : String
deriving Repr, DecidableEq

/-- QualitativeRetrievalGraphState (state.py lines 82-87): the retrieval
sub-workflow's local state (a TypedDict); absent keys are modelled as "". -/
structure QualitativeRetrievalGraphState where
  question : String := ""
  context : String := ""
  relevant_context : String := ""
deriving Repr, DecidableEq

/-- The model-oracle and vector-store capabilities the graph's nodes
consume: one function per structured-output call site (nodes.py,
retrieval_nodes.py) and the two similarity searches (tools.py), the
latter returning the space-joined page contents directly.  The
GroundedOnFacts and CanBeAnswered outputs read by retrieval_nodes.py
(result.grounded_on_facts, result.can_be_answered) are Booleans.  The
grounding verdicts of the retrieval sub-workflow's loop are a stream, one
Boolean per check, since consecutive model calls may answer differently. -/
structure Oracle where
  plannerSteps : String → List String
  breakdownSteps : List String → List String
  replanSteps : String → List String → List String → String → List String
  taskHandler : String → String → String → List String → String → TaskHandlerOutput
  searchChunks : String → String
  searchQuotes : String → String
  keepRelevant : String → String → String
  distilledGrounded : List Bool
  groundedOnFacts : String → String → Bool
  canBeAnswered : String → String → Bool
  answerFromContext : String → String → String
  finalAnswer : String → String → List String → String

/-! ## The relevance-filter sub-workflow
(src/app/src/agent/utils/workflow.py, retrieval_nodes.py) -/

/-- The two node kinds of the sub-workflow built by
build_retrieval_workflow (workflow.py lines 22-35): the retrieval entry
node and the keep_only_relevant_content filter node. -/
inductive RNode where
  | retrieve
  | filter
deriving Repr, DecidableEq

/-- retrieve_chunks_context_per_question (retrieval_nodes.py lines 48-59):
search the chunk store, join the page contents, escape quotes, and return
the context and question keys (relevant_context is untouched). -/
def retrieve_chunks_context_per_question (o : Oracle)
    (s : QualitativeRetrievalGraphState) : QualitativeRetrievalGraphState :=
  { s with context := escape (o.searchChunks s.question) }

/-- retrieve_book_quotes_context_per_question (retrieval_nodes.py lines
34-45): same shape over the quote store. -/
def retrieve_book_quotes_context_per_question (o : Oracle)
    (s : QualitativeRetrievalGraphState) : QualitativeRetrievalGraphState :=
  { s with context := escape (o.searchQuotes s.question) }

/-- keep_only_relevant_content (retrieval_nodes.py lines 62-98): the
filter model call distills relevant_content from (question, context); the
result is escaped and stored as relevant_context, while context and
question are returned unchanged. -/
def keep_only_relevant_content (o : Oracle)
    (s : QualitativeRetrievalGraphState) : QualitativeRetrievalGraphState :=
  { s with relevant_context := escape (o.keepRelevant s.question s.context) }

/-- is_distilled_content_grounded_on_content (retrieval_nodes.py lines
101-143): maps the verifier's Boolean verdict to the routing label. -/
def is_distilled_content_grounded_on_content (grounded : Bool) : String :=
  if grounded then "grounded on the original context"
  else "not grounded on the original context"

/-- The filter loop of build_retrieval_workflow (workflow.py lines
27-34): after each keep_only_relevant_content step the verifier's label
either ends the sub-workflow (grounded) or loops back to the filter node.
gs is the stream of verifier verdicts; the trace lists executed nodes in
order, and the final Boolean records whether the loop exited (false: the
verdict stream was exhausted with the loop still running). -/
def filterLoop (o : Oracle) :
    List Bool → QualitativeRetrievalGraphState →
      List RNode × QualitativeRetrievalGraphState × Bool
  | [], s => ([], s, false)
  | g :: gs, s =>
      let s' := keep_only_relevant_content o s
      if is_distilled_content_grounded_on_content g =
          "grounded on the original context" then
        ([RNode.filter], s', true)
      else
        let r := filterLoop o gs s'
        (RNode.filter :: r.1, r.2.1, r.2.2)

/-- One run of the sub-workflow built by build_retrieval_workflow
(workflow.py lines 12-41): the entry retrieval node runs once, then the
filter loop runs. -/
def build_retrieval_workflow_run
    (retrieveFn : Oracle → QualitativeRetrievalGraphState → QualitativeRetrievalGraphState)
    (o : Oracle) (gs : List Bool) (s0 : QualitativeRetrievalGraphState) :
    List RNode × QualitativeRetrievalGraphState × Bool :=
  let s1 := retrieveFn o s0
  let r := filterLoop o gs s1
  (RNode.retrieve :: r.1, r.2.1, r.2.2)

/-! ## Plan-execute graph nodes (src/app/src/agent/utils/nodes.py)

Each LangGraph node returns a dict of updates; LangGraph merges the
returned keys into the PlanExecute state and leaves all other fields
unchanged. -/

/-- planner_node (nodes.py lines 30-40): returns the question and the
planner's steps. -/
def planner_node (o : Oracle) (s : PlanExecute) : PlanExecute :=
  { s with question := s.question, plan := o.plannerSteps s.question }

/-- break_down_plan_node (nodes.py lines 43-52): rewrites the plan. -/
def break_down_plan_node (o : Oracle) (s : PlanExecute) : PlanExecute :=
  { s with plan := o.breakdownSteps s.plan }

/-- replanner_node (nodes.py lines 55-71): overwrites the plan from
(question, plan, past_steps, aggregated_context). -/
def replanner_node (o : Oracle) (s : PlanExecute) : PlanExecute :=
  { s with plan :=
      o.replanSteps s.question s.plan s.past_steps s.aggregated_context }

/-- task_handler_node (nodes.py lines 74-100): the router model call on
(curr_task, aggregated_context, last tool, past_steps, question); its
output sets query_to_retrieve_or_answer, curr_context and tool. -/
def task_handler_node (o : Oracle) (s : PlanExecute) : PlanExecute :=
  let curr_task := s.plan.headD ""
  let r := o.taskHandler curr_task s.aggregated_context s.tool s.past_steps
    s.question
  { s with query_to_retrieve_or_answer := r.query,
           curr_context := r.curr_context,
           tool := r.tool }

/-- get_final_answer_node (nodes.py lines 147-181): synthesizes the final
response from (question, aggregated_context, past_steps). -/
def get_final_answer_node (o : Oracle) (s : PlanExecute) : PlanExecute :=
  { s with response := o.finalAnswer s.question s.aggregated_context s.past_steps }

/-! ## Duck-typed state access for answer_question_from_context_node

nodes.py lines 103-144 access the state by dict subscription
(state["question"]), although the compiled graph's schema is the Pydantic
model PlanExecute, which defines neither __getitem__ nor __contains__. -/

/-- A Python state argument as a LangGraph node receives it: an instance
of the Pydantic PlanExecute model (what a graph with schema PlanExecute
passes) or a plain dict. -/
inductive StateArg where
  | model (s : PlanExecute)
  | dict (d : List (String × String))

/-- Python subscription state[key]: succeeds on a dict with the key,
raises KeyError on a dict without it, and raises TypeError on a Pydantic
model, which is not subscriptable. -/
def pySubscript : StateArg → String → Except String String
  | .model _, _ => .error "TypeError: PlanExecute object is not subscriptable"
  | .dict d, key =>
      match d.lookup key with
      | some v => .ok v
      | none => .error "KeyError"

/-- Python membership key in state: works on a dict, raises TypeError on
a Pydantic model, which is not iterable. -/
def pyContains : StateArg → String → Except String Bool
  | .model _, _ => .error "TypeError: argument of type PlanExecute is not iterable"
  | .dict d, key => .ok (d.lookup key).isSome

/-- The dict returned by answer_question_from_context_node. -/
structure AnswerOutput where
  answer : String
  context : String
  question : String
deriving Repr, DecidableEq

/-- answer_question_from_context_node (nodes.py lines 103-144): reads
state["question"], then "aggregated_context" in state, then the matching
context subscript, and invokes the chain-of-thought answer model.  Any
raised access error aborts the node. -/
def answer_question_from_context_node (o : Oracle) (state : StateArg) :
    Except String AnswerOutput := do
  let question ← pySubscript state "question"
  let hasAgg ← pyContains state "aggregated_context"
  let context ←
    if hasAgg then pySubscript state "aggregated_context"
    else pySubscript state "context"
  pure { answer := o.answerFromContext question context,
         context := context, question := question }

/-! ## The plan-execute graph (src/app/src/agent/graph.py) -/

/-- The graph's nodes (graph.py lines 25-42) plus the START and END
sentinels. -/
inductive GNode where
  | START
  | planner
  | break_down_plan
  | task_handler
  | answer
  | get_final_answer
  | retrieve_chunks
  | retrieve_quotes
  | replanner
  | END
deriving Repr, DecidableEq

/-- route_based_on_tool (graph.py lines 45-53): maps the state's tool
field to a branch label; for any other tool value the Python function
falls off the end and returns None. -/
def route_based_on_tool (s : PlanExecute) : Option String :=
  if s.tool = "retrieve_chunks" then some "retrieve_chunks"
  else if s.tool = "retrieve_quotes" then some "retrieve_quotes"
  else if s.tool = "answer_from_context" then some "answer"
  else none

/-- The conditional-edge mapping out of task_handler (graph.py lines
62-70). -/
def taskHandlerEdges (lbl : String) : Option GNode :=
  if lbl = "retrieve_chunks" then some GNode.retrieve_chunks
  else if lbl = "retrieve_quotes" then some GNode.retrieve_quotes
  else if lbl = "answer" then some GNode.answer
  else none

/-- The conditional-edge mapping out of replanner (graph.py lines
77-81). -/
def replannerEdges (lbl : String) : Option GNode :=
  if lbl = "useful" then some GNode.get_final_answer
  else if lbl = "not_useful" then some GNode.break_down_plan
  else none

/-- The conditional-edge mapping out of answer (graph.py lines 87-91). -/
def answerEdges (lbl : String) : Option GNode :=
  if lbl = "hallucination" then some GNode.answer
  else if lbl = "grounded on context" then some GNode.replanner
  else none

/-- can_question_be_answered (retrieval_nodes.py lines 185-213): maps the
oracle's verdict on (question, aggregated_context) to a routing label. -/
def can_question_be_answered (o : Oracle) (s : PlanExecute) : String :=
  if o.canBeAnswered s.question s.aggregated_context then "useful"
  else "not_useful"

/-- is_answer_grounded_on_context (retrieval_nodes.py lines 146-182):
maps the verifier's Boolean on (context, answer) to a routing label. -/
def is_answer_grounded_on_context (o : Oracle) (context answer : String) :
    String :=
  if o.groundedOnFacts context answer then "grounded on context"
  else "hallucination"

/-- Invoking a compiled retrieval sub-workflow as a node of the parent
graph (graph.py lines 32-41): the sub-workflow starts from the shared
state keys (question, context); on exit its question and context keys are
merged back into the parent state, while its relevant_context key is not
a channel of PlanExecute and is dropped.  none models a sub-workflow
whose grounding loop never exits. -/
def run_retrieval_subgraph
    (retrieveFn : Oracle → QualitativeRetrievalGraphState → QualitativeRetrievalGraphState)
    (o : Oracle) (s : PlanExecute) : Option PlanExecute :=
  let init : QualitativeRetrievalGraphState :=
    { question := s.question, context := s.context, relevant_context := "" }
  let r := build_retrieval_workflow_run retrieveFn o o.distilledGrounded init
  if r.2.2 then
    some { s with question := r.2.1.question, context := r.2.1.context }
  else none

/-- One transition of the compiled plan-execute graph (graph.py lines
56-93), for a given oracle: run the current node on the state, then
follow the unconditional or conditional edge out of it.  none models a
transition that does not complete: the terminal END state, a router label
outside the edge mapping, a retrieval sub-workflow whose loop never
exits, or a node that raises. -/
def step (o : Oracle) : GNode × PlanExecute → Option (GNode × PlanExecute)
  | (.START, s) => some (.planner, s)
  | (.planner, s) => some (.break_down_plan, planner_node o s)
  | (.break_down_plan, s) => some (.task_handler, break_down_plan_node o s)
  | (.task_handler, s) =>
      let s' := task_handler_node o s
      match route_based_on_tool s' with
      | some lbl =>
          match taskHandlerEdges lbl with
          | some n => some (n, s')
          | none => none
      | none => none
  | (.retrieve_chunks, s) =>
      (run_retrieval_subgraph retrieve_chunks_context_per_question o s).map
        (fun s' => (.replanner, s'))
  | (.retrieve_quotes, s) =>
      (run_retrieval_subgraph retrieve_book_quotes_context_per_question o s).map
        (fun s' => (.replanner, s'))
  | (.replanner, s) =>
      let s' := replanner_node o s
      match replannerEdges (can_question_be_answered o s') with
      | some n => some (n, s')
      | none => none
  | (.answer, s) =>
      match answer_question_from_context_node o (.model s) with
      | .error _ => none
      | .ok out =>
          let s' := { s with question := out.question, context := out.context }
          match answerEdges (is_answer_grounded_on_context o s'.context "") with
          | some n => some (n, s')
          | none => none
  | (.get_final_answer, s) => some (.END, get_final_answer_node o s)
  | (.END, _) => none

/-- A run of the graph: iterate step, one oracle per transition (the
model may answer differently at each call). -/
def runSteps : List Oracle → GNode × PlanExecute → Option (GNode × PlanExecute)
  | [], g => some g
  | o :: os, g =>
      match step o g with
      | some g' => runSteps os g'
      | none => none

/-! ## Ingestion pipeline (src/app/scripts/ingestion.py)

The MD5 digest of hashlib is modelled as an abstract hash function
parameter; the Qdrant collection is modelled by the content_hash payload
entries of its stored points. -/

/-- A document handed to the ingestion pipeline. -/
structure IngestDoc where
  page_content : String
  metadata : List (String × String)
deriving Repr, DecidableEq

/-- get_existing_hashes (ingestion.py lines 78-117): collect the
content_hash payload values of every stored point (points without one are
skipped). -/
def get_existing_hashes (store : List (Option String)) : List String :=
  store.filterMap id

/-- process_batch (ingestion.py lines 156-191): each document of the
batch is converted to a LangChain document whose metadata is the original
metadata extended with its content hash. -/
def process_batch (md5 : String → String) (documents : List IngestDoc) :
    List IngestDoc :=
  documents.map (fun d =>
    { page_content := d.page_content,
      metadata := d.metadata ++ [("content_hash", md5 d.page_content)] })

/-- Config.BATCH_SIZE (src/app/config.py line 28). -/
def ConfigBATCH_SIZE : Nat := 10

/-- The batching loop of ingest_documents (ingestion.py lines 256-280):
documents accumulate in current_batch, which is flushed whenever it
reaches B documents; a non-empty remainder is flushed at the end. -/
def batchChunks (B : Nat) : List IngestDoc → List IngestDoc → List (List IngestDoc)
  | acc, [] => if acc.isEmpty then [] else [acc]
  | acc, d :: ds =>
      let acc' := acc ++ [d]
      if B ≤ acc'.length then acc' :: batchChunks B [] ds
      else batchChunks B acc' ds

/-- The store operations a run of ingest_documents performs, in order. -/
inductive IngestEvent where
  | getExistingHashes
  | insertBatch (documents : List IngestDoc)
deriving Repr, DecidableEq

/-- ingest_documents (ingestion.py lines 193-289) as its trace of store
operations: with no input documents it returns before touching the store;
otherwise it fetches the existing hashes once, filters out every document
whose content hash is among them, and inserts the remaining documents in
batches.  Note that the loop at line 262 compares current_batch against
Config.BATCH_SIZE, not against the batch_size parameter forwarded from
the --batch-size flag. -/
def ingest_documents (md5 : String → String) (store : List (Option String))
    (docs : List IngestDoc) (batch_size : Nat) : List IngestEvent :=
  if docs.isEmpty then []
  else
    let existing_hashes := get_existing_hashes store
    let new_documents :=
      docs.filter (fun d => !(existing_hashes.contains (md5 d.page_content)))
    if new_documents.isEmpty then [IngestEvent.getExistingHashes]
    else
      IngestEvent.getExistingHashes ::
        (batchChunks ConfigBATCH_SIZE [] new_documents).map
          (fun batch => IngestEvent.insertBatch (process_batch md5 batch))

/-- The sizes of the inserted batches of a trace, in order. -/
def batchLengths (tr : List IngestEvent) : List Nat :=
  tr.filterMap (fun e =>
    match e with
    | IngestEvent.insertBatch b => some b.length
    | _ => none)

/-- The three tool names the TaskHandlerOutput description declares. -/
def toolValues : List String :=
  ["retrieve_chunks", "retrieve_quotes", "answer_from_context"]

/-- An oracle whose task-handler output keeps the tool field within the
values its schema description declares. -/
def GoodTaskHandler (o : Oracle) : Prop :=
  ∀ a b c d e, (o.taskHandler a b c d e).tool ∈ toolValues

/-- A concrete oracle used to instantiate hypotheses on sample runs. -/
def sampleOracle : Oracle where
  plannerSteps := fun _ => ["s1"]
  breakdownSteps := fun p => p
  replanSteps := fun _ _ _ _ => []
  taskHandler := fun _ _ _ _ _ =>
    { query := "", curr_context := "", tool := "retrieve_chunks" }
  searchChunks := fun _ => "raw"
  searchQuotes := fun _ => "raw"
  keepRelevant := fun _ _ => "X"
  distilledGrounded := [true]
  groundedOnFacts := fun _ _ => true
  canBeAnswered := fun _ _ => true
  answerFromContext := fun _ _ => "ans"
  finalAnswer := fun _ _ _ => "final"

/-- A concrete plan-execute state used on sample runs. -/
def sampleState : PlanExecute :=
  { question := "q", context := "c", aggregated_context := "A",
    past_steps := ["p0"] }

/-- A document whose content is already in the store on the sample run. -/
def dupDoc : IngestDoc := { page_content := "dup", metadata := [] }

/-- A fresh document on the sample run. -/
def newDoc : IngestDoc := { page_content := "new", metadata := [] }

/-- Fifteen pairwise distinct fresh documents. -/
def docs15 : List IngestDoc :=
  (List.range 15).map
    (fun i => { page_content := String.mk (List.replicate i 'a'), metadata := [] })

lemma replaceOne_append (c : Char) (r : List Char) (x y : List Char) :
    replaceOne c r (x ++ y) = replaceOne c r x ++ replaceOne c r y := by
  induction x with
  | nil => simp [replaceOne]
  | cons a t ih => simp [replaceOne, ih]

lemma escapeL_eq_escAll (l : List Char) : escapeL l = escAll l := by
  induction l with
  | nil => rfl
  | cons a t ih =>
      unfold escapeL at ih ⊢
      rw [replaceOne, replaceOne_append, ih]
      congr 1
      by_cases h1 : a = '"'
      · subst h1; decide
      · by_cases h2 : a = '\''
        · subst h2; decide
        · simp [replaceOne, escStep, h1, h2]

lemma replacePair_cons_cons (q a b : Char) (t : List Char) :
    replacePair q (a :: b :: t) =
      if a = '\\' ∧ b = q then q :: replacePair q t
      else a :: replacePair q (b :: t) := rfl

lemma replacePair_cons_of_ne (q c : Char) (hc : c ≠ '\\') (y : List Char) :
    replacePair q (c :: y) = c :: replacePair q y := by
  cases y with
  | nil => rfl
  | cons b t =>
      rw [replacePair_cons_cons, if_neg]
      exact fun h => hc h.1


lemma replacePair_backslash_cons (q : Char) (y : List Char)
    (hy : HeadIsnt q y) : replacePair q ('\\' :: y) = '\\' :: replacePair q y := by
  cases y with
  | nil => rfl
  | cons b t =>
      have hb : b ≠ q := hy
      rw [replacePair_cons_cons, if_neg]
      exact fun h => hb h.2

lemma headIsnt_escAll (l : List Char) : HeadIsnt '\'' (escAll l) := by
  cases l with
  | nil => trivial
  | cons a t =>
      rw [escAll]
      by_cases h1 : a = '"'
      · subst h1
        rw [show escStep '"' = ['\\', '"'] by rfl]
        show ('\\' : Char) ≠ '\''
        decide
      · by_cases h2 : a = '\''
        · subst h2
          rw [show escStep '\'' = ['\\', '\''] by rfl]
          show ('\\' : Char) ≠ '\''
          decide
        · rw [show escStep a = [a] by simp [escStep, h1, h2]]
          exact h2

lemma headIsnt_halfAll (l : List Char) : HeadIsnt '"' (halfAll l) := by
  cases l with
  | nil => trivial
  | cons a t =>
      rw [halfAll]
      by_cases h1 : a = '"'
      · subst h1
        rw [show halfStep '"' = ['\\', '"'] by rfl]
        show ('\\' : Char) ≠ '"'
        decide
      · rw [show halfStep a = [a] by simp [halfStep, h1]]
        exact h1

lemma replacePair_quote_escAll (l : List Char) :
    replacePair '\'' (escAll l) = halfAll l := by
  induction l with
  | nil => rfl
  | cons a t ih =>
      rw [escAll, halfAll]
      by_cases h1 : a = '"'
      · subst h1
        rw [show escStep '"' = ['\\', '"'] by rfl,
          show halfStep '"' = ['\\', '"'] by rfl]
        show replacePair '\'' ('\\' :: '"' :: escAll t) = '\\' :: '"' :: halfAll t
        rw [replacePair_cons_cons, if_neg (by decide),
          replacePair_cons_of_ne '\'' '"' (by decide), ih]
      · by_cases h2 : a = '\''
        · subst h2
          rw [show escStep '\'' = ['\\', '\''] by rfl,
            show halfStep '\'' = ['\''] by rfl]
          show replacePair '\'' ('\\' :: '\'' :: escAll t) = '\'' :: halfAll t
          rw [replacePair_cons_cons, if_pos (by decide), ih]
        · by_cases h3 : a = '\\'
          · subst h3
            rw [show escStep '\\' = ['\\'] by rfl,
              show halfStep '\\' = ['\\'] by rfl]
            show replacePair '\'' ('\\' :: escAll t) = '\\' :: halfAll t
            rw [replacePair_backslash_cons '\'' _ (headIsnt_escAll t), ih]
          · rw [show escStep a = [a] by simp [escStep, h1, h2],
              show halfStep a = [a] by simp [halfStep, h1]]
            show replacePair '\'' (a :: escAll t) = a :: halfAll t
            rw [replacePair_cons_of_ne '\'' a h3, ih]

lemma replacePair_dquote_halfAll (l : List Char) :
    replacePair '"' (halfAll l) = l := by
  induction l with
  | nil => rfl
  | cons a t ih =>
      rw [halfAll]
      by_cases h1 : a = '"'
      · subst h1
        rw [show halfStep '"' = ['\\', '"'] by rfl]
        show replacePair '"' ('\\' :: '"' :: halfAll t) = '"' :: t
        rw [replacePair_cons_cons, if_pos (by decide), ih]
      · by_cases h3 : a = '\\'
        · subst h3
          rw [show halfStep '\\' = ['\\'] by rfl]
          show replacePair '"' ('\\' :: halfAll t) = '\\' :: t
          rw [replacePair_backslash_cons '"' _ (headIsnt_halfAll t), ih]
        · rw [show halfStep a = [a] by simp [halfStep, h1]]
          show replacePair '"' (a :: halfAll t) = a :: t
          rw [replacePair_cons_of_ne '"' a h3, ih]

lemma unescapeL_escapeL (l : List Char) : unescapeL (escapeL l) = l := by
  rw [unescapeL, escapeL_eq_escAll, replacePair_quote_escAll,
    replacePair_dquote_halfAll]

/-- Claim C10: the quote-escaping applied to retrieved and filtered text
(replace every double quote by backslash-double-quote, then every single
quote by backslash-single-quote) is reversible: for every string x,
including strings containing single or double quotes and backslashes, the
canonical unescaping (inverse replacement) of the escaped string returns
x, i.e. unescape (escape x) = x. -/
theorem unescape_escape (s : String) : unescape (escape s) = s := by
  cases s with
  | mk data =>
      show (⟨unescapeL (escapeL data)⟩ : String) = ⟨data⟩
      rw [unescapeL_escapeL]

/-! ## Theorems about the relevance-filter sub-workflow -/

lemma keep_only_relevant_content_context (o : Oracle)
    (s : QualitativeRetrievalGraphState) :
    (keep_only_relevant_content o s).context = s.context := rfl

lemma filterLoop_context (o : Oracle) (gs : List Bool)
    (s : QualitativeRetrievalGraphState) :
    (filterLoop o gs s).2.1.context = s.context := by
  induction gs generalizing s with
  | nil => rfl
  | cons g gs ih =>
      rw [filterLoop]
      split
      · rfl
      · exact ih (keep_only_relevant_content o s)

lemma filterLoop_no_retrieve (o : Oracle) (gs : List Bool)
    (s : QualitativeRetrievalGraphState) :
    RNode.retrieve ∉ (filterLoop o gs s).1 := by
  induction gs generalizing s with
  | nil => simp [filterLoop]
  | cons g gs ih =>
      rw [filterLoop]
      split
      · simp
      · simp only [List.mem_cons]
        rintro (h | h)
        · exact absurd h (by decide)
        · exact ih (keep_only_relevant_content o s) h

lemma filterLoop_cons_head (o : Oracle) (g : Bool) (gs : List Bool)
    (s : QualitativeRetrievalGraphState) :
    ∃ t, (filterLoop o (g :: gs) s).1 = RNode.filter :: t := by
  rw [filterLoop]
  split
  · exact ⟨[], rfl⟩
  · exact ⟨_, rfl⟩

/-- Claim C2: for every invocation of the relevance-filter sub-workflow
and every stream of Grounding Verifier verdicts: if the first check on
the filter output is grounded, the run consists of exactly one RETRIEVE
step and one FILTER step and exits; if a check is not grounded, the next
step is FILTER again; along the whole run the raw context produced by the
retrieval step is never changed (each re-filter works on the same raw
context), and the retrieval step runs exactly once. -/
theorem relevance_filter_single_pass
    (retrieveFn : Oracle → QualitativeRetrievalGraphState → QualitativeRetrievalGraphState)
    (o : Oracle) (s0 : QualitativeRetrievalGraphState) (g : Bool)
    (gs : List Bool) :
    ((build_retrieval_workflow_run retrieveFn o (true :: gs) s0).1 =
        [RNode.retrieve, RNode.filter]
      ∧ (build_retrieval_workflow_run retrieveFn o (true :: gs) s0).2.2 = true)
    ∧ (build_retrieval_workflow_run retrieveFn o (false :: g :: gs) s0).1.take 3 =
        [RNode.retrieve, RNode.filter, RNode.filter]
    ∧ (∀ hs : List Bool,
        (build_retrieval_workflow_run retrieveFn o hs s0).2.1.context =
          (retrieveFn o s0).context)
    ∧ (∀ hs : List Bool,
        (build_retrieval_workflow_run retrieveFn o hs s0).1.count RNode.retrieve = 1) := by
  refine ⟨⟨?_, ?_⟩, ?_, ?_, ?_⟩
  · show (RNode.retrieve :: (filterLoop o (true :: gs) (retrieveFn o s0)).1) = _
    rw [filterLoop, if_pos (by decide)]
  · show (filterLoop o (true :: gs) (retrieveFn o s0)).2.2 = true
    rw [filterLoop, if_pos (by decide)]
  · show (RNode.retrieve :: (filterLoop o (false :: g :: gs) (retrieveFn o s0)).1).take 3 = _
    rw [filterLoop, if_neg (by decide)]
    obtain ⟨t, ht⟩ := filterLoop_cons_head o g gs
      (keep_only_relevant_content o (retrieveFn o s0))
    simp [ht]
  · intro hs
    show (filterLoop o hs (retrieveFn o s0)).2.1.context = _
    exact filterLoop_context o hs (retrieveFn o s0)
  · intro hs
    show (RNode.retrieve :: (filterLoop o hs (retrieveFn o s0)).1).count RNode.retrieve = 1
    rw [List.count_cons_self,
      List.count_eq_zero.mpr (filterLoop_no_retrieve o hs (retrieveFn o s0))]

/-! ## Theorems about the plan-execute graph's routing -/

/-- Claim C3: the conditional edge out of the answer node routes by the
grounding check is_answer_grounded_on_context: a not-grounded verdict
routes back to the answer node (in particular for any oracle that judges
an answer against its context as hallucination), a grounded verdict
routes forward to the replanner node, and the edge mapping admits no
successor of the answer node other than these two. -/
theorem answer_branch_routing :
    (∀ (o : Oracle) (context answer : String),
      answerEdges (is_answer_grounded_on_context o context answer) =
        some (if o.groundedOnFacts context answer then GNode.replanner
              else GNode.answer))
    ∧ (∀ lbl : String,
        answerEdges lbl = none ∨ answerEdges lbl = some GNode.answer ∨
          answerEdges lbl = some GNode.replanner) := by
  constructor
  · intro o context answer
    cases h : o.groundedOnFacts context answer with
    | false =>
        rw [is_answer_grounded_on_context, if_neg (by simp [h])]
        rw [answerEdges, if_pos rfl, if_neg (by decide)]
    | true =>
        rw [is_answer_grounded_on_context, if_pos (by simp [h])]
        rw [answerEdges, if_neg (by decide), if_pos rfl]
        rfl
  · intro lbl
    rw [answerEdges]
    split
    · simp
    · split
      · simp
      · simp

/-- Claim C4: after the replanner node runs, can_question_be_answered
decides the transition: a useful verdict goes to the final-answer node,
which goes directly to END (a terminal state with no outgoing
transition); a not-useful verdict loops back to break_down_plan; and the
edge mapping admits no other successor of the replanner node. -/
theorem replanner_routing :
    (∀ (o : Oracle) (s : PlanExecute),
      step o (GNode.replanner, s) =
        some (if o.canBeAnswered (replanner_node o s).question
                  (replanner_node o s).aggregated_context
              then (GNode.get_final_answer, replanner_node o s)
              else (GNode.break_down_plan, replanner_node o s)))
    ∧ (∀ (o : Oracle) (s : PlanExecute),
        step o (GNode.get_final_answer, s) =
          some (GNode.END, get_final_answer_node o s))
    ∧ (∀ (o : Oracle) (s : PlanExecute), step o (GNode.END, s) = none)
    ∧ (∀ lbl : String,
        replannerEdges lbl = none ∨
          replannerEdges lbl = some GNode.get_final_answer ∨
          replannerEdges lbl = some GNode.break_down_plan) := by
  refine ⟨?_, fun _ _ => rfl, fun _ _ => rfl, ?_⟩
  · intro o s
    show (match replannerEdges (can_question_be_answered o (replanner_node o s)) with
          | some n => some (n, replanner_node o s)
          | none => none) = _
    cases h : o.canBeAnswered (replanner_node o s).question
        (replanner_node o s).aggregated_context with
    | false =>
        rw [can_question_be_answered, if_neg (by simp [h])]
        rw [show replannerEdges "not_useful" = some GNode.break_down_plan from rfl]
        simp [h]
    | true =>
        rw [can_question_be_answered, if_pos (by simp [h])]
        rw [show replannerEdges "useful" = some GNode.get_final_answer from rfl]
        simp [h]
  · intro lbl
    rw [replannerEdges]
    split
    · simp
    · split
      · simp
      · simp

/-- Claim C7: the answer node accesses the graph state by dict
subscription although the state schema is the Pydantic model PlanExecute,
so for every PlanExecute state the very first access raises a TypeError
before any output is produced, and the answer branch of the compiled
graph never completes a transition. -/
theorem answer_node_always_raises (o : Oracle) (s : PlanExecute) :
    answer_question_from_context_node o (StateArg.model s) =
      Except.error "TypeError: PlanExecute object is not subscriptable"
    ∧ step o (GNode.answer, s) = none :=
  ⟨rfl, rfl⟩

/-! ## State-update facts about the plan-execute graph -/


lemma run_retrieval_subgraph_some
    (fn : Oracle → QualitativeRetrievalGraphState → QualitativeRetrievalGraphState)
    (o : Oracle) (s s' : PlanExecute)
    (h : run_retrieval_subgraph fn o s = some s') :
    s'.aggregated_context = s.aggregated_context ∧ s'.past_steps = s.past_steps
      ∧ s'.tool = s.tool := by
  simp only [run_retrieval_subgraph] at h
  split at h
  · injection h with h'
    subst h'
    exact ⟨rfl, rfl, rfl⟩
  · cases h

lemma step_fields (o : Oracle) (n : GNode) (s : PlanExecute)
    (g' : GNode × PlanExecute) (h : step o (n, s) = some g') :
    g'.2.aggregated_context = s.aggregated_context
      ∧ g'.2.past_steps = s.past_steps
      ∧ (g'.2.tool = s.tool ∨
          g'.2.tool = (o.taskHandler (s.plan.headD "") s.aggregated_context
            s.tool s.past_steps s.question).tool) := by
  cases n with
  | START =>
      injection h with h'
      subst h'
      exact ⟨rfl, rfl, Or.inl rfl⟩
  | planner =>
      injection h with h'
      subst h'
      exact ⟨rfl, rfl, Or.inl rfl⟩
  | break_down_plan =>
      injection h with h'
      subst h'
      exact ⟨rfl, rfl, Or.inl rfl⟩
  | task_handler =>
      simp only [step] at h
      split at h
      · split at h
        · injection h with h'
          subst h'
          exact ⟨rfl, rfl, Or.inr rfl⟩
        · cases h
      · cases h
  | retrieve_chunks =>
      simp only [step] at h
      cases hr : run_retrieval_subgraph retrieve_chunks_context_per_question o s with
      | none => rw [hr] at h; cases h
      | some s2 =>
          rw [hr] at h
          injection h with h'
          subst h'
          obtain ⟨h1, h2, h3⟩ := run_retrieval_subgraph_some _ o s s2 hr
          exact ⟨h1, h2, Or.inl h3⟩
  | retrieve_quotes =>
      simp only [step] at h
      cases hr : run_retrieval_subgraph retrieve_book_quotes_context_per_question o s with
      | none => rw [hr] at h; cases h
      | some s2 =>
          rw [hr] at h
          injection h with h'
          subst h'
          obtain ⟨h1, h2, h3⟩ := run_retrieval_subgraph_some _ o s s2 hr
          exact ⟨h1, h2, Or.inl h3⟩
  | replanner =>
      simp only [step] at h
      split at h
      · injection h with h'
        subst h'
        exact ⟨rfl, rfl, Or.inl rfl⟩
      · cases h
  | answer => exact Option.noConfusion h
  | get_final_answer =>
      injection h with h'
      subst h'
      exact ⟨rfl, rfl, Or.inl rfl⟩
  | END => exact Option.noConfusion h

/-- Claim C5: for every run of the plan-execute graph and every pair of
consecutive states, the character length of aggregated_context never
decreases (in this code it is in fact left unchanged by every node). -/
theorem aggregated_context_never_shrinks :
    (∀ (o : Oracle) (g g' : GNode × PlanExecute), step o g = some g' →
      g.2.aggregated_context.length ≤ g'.2.aggregated_context.length)
    ∧ (∀ (os : List Oracle) (g g' : GNode × PlanExecute),
        runSteps os g = some g' →
        g.2.aggregated_context.length ≤ g'.2.aggregated_context.length) := by
  have hstep : ∀ (o : Oracle) (g g' : GNode × PlanExecute), step o g = some g' →
      g'.2.aggregated_context = g.2.aggregated_context := by
    intro o g g' h
    obtain ⟨n, s⟩ := g
    exact (step_fields o n s g' h).1
  constructor
  · intro o g g' h
    exact le_of_eq (congrArg String.length (hstep o g g' h)).symm
  · intro os
    induction os with
    | nil =>
        intro g g' h
        injection h with h'
        subst h'
        exact le_refl _
    | cons o os ih =>
        intro g g' h
        simp only [runSteps] at h
        cases hs : step o g with
        | none => rw [hs] at h; cases h
        | some g1 =>
            rw [hs] at h
            exact le_trans
              (le_of_eq (congrArg String.length (hstep o g g1 hs)).symm)
              (ih g1 g' h)

theorem aggregated_context_never_shrinks_witness :
    (GNode.START, sampleState).2.aggregated_context.length ≤
      (GNode.planner, sampleState).2.aggregated_context.length :=
  aggregated_context_never_shrinks.1 sampleOracle (GNode.START, sampleState)
    (GNode.planner, sampleState) rfl

lemma sampleOracle_good : GoodTaskHandler sampleOracle := by
  intro a b c d e
  show ("retrieve_chunks" : String) ∈ toolValues
  decide

/-- Claim C6: route_based_on_tool yields one of exactly three successor
labels, is defined (some) exactly on the three declared tool values, and
has no defined result for any other tool string; consequently, over
oracles whose task-handler output respects the declared tool values,
every state reachable from the graph's entry keeps its tool field within
those three values or the unset default. -/
theorem tool_field_and_routing :
    (∀ s : PlanExecute,
      route_based_on_tool s = none ∨
        route_based_on_tool s = some "retrieve_chunks" ∨
        route_based_on_tool s = some "retrieve_quotes" ∨
        route_based_on_tool s = some "answer")
    ∧ (∀ s : PlanExecute,
        (route_based_on_tool s).isSome ↔ s.tool ∈ toolValues)
    ∧ (∀ (os : List Oracle) (q : String) (g' : GNode × PlanExecute),
        (∀ o ∈ os, GoodTaskHandler o) →
        runSteps os (GNode.START, { question := q }) = some g' →
        g'.2.tool = "" ∨ g'.2.tool ∈ toolValues) := by
  refine ⟨?_, ?_, ?_⟩
  · intro s
    rw [route_based_on_tool]
    split
    · simp
    · split
      · simp
      · split
        · simp
        · simp
  · intro s
    rw [route_based_on_tool]
    split_ifs with h1 h2 h3
    · simp [toolValues, h1]
    · simp [toolValues, h2]
    · simp [toolValues, h3]
    · simp [toolValues, h1, h2, h3]
  · have aux : ∀ (os : List Oracle) (g g' : GNode × PlanExecute),
        (∀ o ∈ os, GoodTaskHandler o) →
        (g.2.tool = "" ∨ g.2.tool ∈ toolValues) →
        runSteps os g = some g' →
        g'.2.tool = "" ∨ g'.2.tool ∈ toolValues := by
      intro os
      induction os with
      | nil =>
          intro g g' _ hg h
          injection h with h'
          subst h'
          exact hg
      | cons o os ih =>
          intro g g' ho hg h
          simp only [runSteps] at h
          cases hs : step o g with
          | none => rw [hs] at h; cases h
          | some g1 =>
              rw [hs] at h
              obtain ⟨n, s⟩ := g
              have := (step_fields o n s g1 hs).2.2
              refine ih g1 g' (fun o' ho' => ho o' (List.mem_cons_of_mem _ ho')) ?_ h
              rcases this with ht | ht
              · rw [ht]; exact hg
              · rw [ht]
                exact Or.inr (ho o (List.mem_cons_self o os) _ _ _ _ _)
    intro os q g' ho h
    exact aux os (GNode.START, { question := q }) g' ho (Or.inl rfl) h

theorem tool_field_and_routing_witness :
    (GNode.planner, ({ question := "q" } : PlanExecute)).2.tool = "" ∨
      (GNode.planner, ({ question := "q" } : PlanExecute)).2.tool ∈ toolValues :=
  tool_field_and_routing.2.2 [sampleOracle] "q"
    (GNode.planner, { question := "q" })
    (by
      intro o ho
      rw [List.mem_singleton] at ho
      subst ho
      exact sampleOracle_good)
    rfl

/-- Claim C1 (counter-evidence, concrete run): returning from the
retrieve_chunks branch to the replanner leaves aggregated_context and
past_steps exactly as they were, even though the sub-workflow produced
the non-empty filtered content "X"; the sub-workflow's relevant_context
key is simply dropped, and only the shared question/context keys reach
the parent state. -/
theorem retrieval_return_discards_filtered_content :
    step sampleOracle (GNode.retrieve_chunks, sampleState) =
      some (GNode.replanner, { sampleState with context := "raw" })
    ∧ (build_retrieval_workflow_run retrieve_chunks_context_per_question
        sampleOracle sampleOracle.distilledGrounded
        { question := sampleState.question, context := sampleState.context,
          relevant_context := "" }).2.1.relevant_context = "X"
    ∧ ({ sampleState with context := "raw" } : PlanExecute).aggregated_context
        = sampleState.aggregated_context
    ∧ ({ sampleState with context := "raw" } : PlanExecute).past_steps
        = sampleState.past_steps := by
  refine ⟨?_, ?_, rfl, rfl⟩ <;> decide

/-! ## Theorems about the ingestion pipeline -/

lemma batchChunks_mem_subset (B : Nat) :
    ∀ (ds acc b : List IngestDoc),
      b ∈ batchChunks B acc ds → ∀ x ∈ b, x ∈ acc ∨ x ∈ ds := by
  intro ds
  induction ds with
  | nil =>
      intro acc b hb x hx
      simp only [batchChunks] at hb
      split at hb
      · cases hb
      · rw [List.mem_singleton] at hb
        subst hb
        exact Or.inl hx
  | cons d ds ih =>
      intro acc b hb x hx
      simp only [batchChunks] at hb
      split at hb
      · rcases List.mem_cons.mp hb with hb | hb
        · subst hb
          rcases List.mem_append.mp hx with hx | hx
          · exact Or.inl hx
          · rw [List.mem_singleton] at hx
            subst hx
            exact Or.inr (List.mem_cons_self _ _)
        · rcases ih [] b hb x hx with h0 | h0
          · cases h0
          · exact Or.inr (List.mem_cons_of_mem _ h0)
      · rcases ih (acc ++ [d]) b hb x hx with h0 | h0
        · rcases List.mem_append.mp h0 with h1 | h1
          · exact Or.inl h1
          · rw [List.mem_singleton] at h1
            subst h1
            exact Or.inr (List.mem_cons_self _ _)
        · exact Or.inr (List.mem_cons_of_mem _ h0)

/-- Claim C8: a run of ingest_documents fetches the existing content
hashes at most once, and, whenever there are input documents, exactly
once and before any batch insert; every inserted document carries its
content hash in its metadata, and no inserted document has a content
hash that was among the existing hashes (such documents are skipped). -/
theorem ingest_hash_check_once_and_skips
    (md5 : String → String) (store : List (Option String))
    (docs : List IngestDoc) (b : Nat) :
    ((ingest_documents md5 store docs b).count IngestEvent.getExistingHashes ≤ 1)
    ∧ (docs ≠ [] →
        (ingest_documents md5 store docs b).head? =
          some IngestEvent.getExistingHashes
        ∧ (ingest_documents md5 store docs b).count
            IngestEvent.getExistingHashes = 1)
    ∧ (∀ batch, IngestEvent.insertBatch batch ∈ ingest_documents md5 store docs b →
        ∀ d ∈ batch,
          ("content_hash", md5 d.page_content) ∈ d.metadata
          ∧ md5 d.page_content ∉ get_existing_hashes store) := by
  by_cases hd : docs.isEmpty
  · have htr : ingest_documents md5 store docs b = [] := by
      simp [ingest_documents, hd]
    refine ⟨by rw [htr]; simp, fun hne => absurd (List.isEmpty_iff.mp hd) hne, ?_⟩
    intro batch hb
    rw [htr] at hb
    cases hb
  · by_cases hnew : (docs.filter
        (fun d => !((get_existing_hashes store).contains (md5 d.page_content)))).isEmpty
    · have htr : ingest_documents md5 store docs b =
          [IngestEvent.getExistingHashes] := by
        simp only [ingest_documents, hd, if_neg, ite_false]
        rw [if_neg (by simpa using hd), if_pos hnew]
      refine ⟨by rw [htr]; simp, fun _ => ⟨by rw [htr]; rfl, by rw [htr]; simp⟩, ?_⟩
      intro batch hb
      rw [htr, List.mem_singleton] at hb
      cases hb
    · have htr : ingest_documents md5 store docs b =
          IngestEvent.getExistingHashes ::
            (batchChunks ConfigBATCH_SIZE []
              (docs.filter
                (fun d => !((get_existing_hashes store).contains (md5 d.page_content))))).map
              (fun batch => IngestEvent.insertBatch (process_batch md5 batch)) := by
        simp only [ingest_documents]
        rw [if_neg (by simpa using hd), if_neg (by simpa using hnew)]
      have hcount0 :
          ((batchChunks ConfigBATCH_SIZE []
              (docs.filter
                (fun d => !((get_existing_hashes store).contains (md5 d.page_content))))).map
              (fun batch => IngestEvent.insertBatch (process_batch md5 batch))).count
            IngestEvent.getExistingHashes = 0 := by
        rw [List.count_eq_zero]
        intro hmem
        obtain ⟨x, _, hx⟩ := List.mem_map.mp hmem
        cases hx
      refine ⟨?_, fun _ => ⟨by rw [htr]; rfl, ?_⟩, ?_⟩
      · rw [htr, List.count_cons_self, hcount0]
      · rw [htr, List.count_cons_self, hcount0]
      · intro batch hb d hd2
        rw [htr] at hb
        rcases List.mem_cons.mp hb with hb | hb
        · cases hb
        · obtain ⟨b0, hb0, heq⟩ := List.mem_map.mp hb
          injection heq with heq'
          subst heq'
          obtain ⟨x, hx, hxd⟩ := List.mem_map.mp hd2
          subst hxd
          constructor
          · exact List.mem_append_right _ (List.mem_singleton.mpr rfl)
          · have hx' := batchChunks_mem_subset ConfigBATCH_SIZE _ [] b0 hb0 x hx
            rcases hx' with h0 | h0
            · cases h0
            · have hflt := (List.mem_filter.mp h0).2
              simp only [Bool.not_eq_true'] at hflt
              simp only [List.contains, List.elem_eq_mem,
                decide_eq_false_iff_not] at hflt
              intro hmem
              exact hflt hmem


theorem ingest_hash_check_once_and_skips_witness :
    (ingest_documents (fun s => s) [some "dup"] [dupDoc, newDoc] 10).head? =
      some IngestEvent.getExistingHashes
    ∧ ("content_hash", "new") ∈
        ({ page_content := "new",
           metadata := [("content_hash", "new")] } : IngestDoc).metadata :=
  ⟨((ingest_hash_check_once_and_skips (fun s => s) [some "dup"]
      [dupDoc, newDoc] 10).2.1 (by decide)).1,
   ((ingest_hash_check_once_and_skips (fun s => s) [some "dup"]
      [dupDoc, newDoc] 10).2.2
      [⟨"new", [("content_hash", "new")]⟩] (by decide)
      ⟨"new", [("content_hash", "new")]⟩ (by decide)).1⟩


/-- Claim C9 (counter-evidence, concrete run): with --batch-size 1 and
fifteen fresh documents, the batching loop still flushes at
Config.BATCH_SIZE, so the run inserts batches of 10 and 5 documents:
the first inserted batch exceeds the requested bound of 1. -/
theorem batch_size_flag_ignored :
    batchLengths (ingest_documents (fun s => s) [] docs15 1) = [10, 5]
    ∧ ConfigBATCH_SIZE = 10 := by
  decide

end AgenticRag
